import Mathlib

/-!
Verification development for the padel-point match-making API
(three Express/Firestore revisions of the same service):

* the "band" revision (`src/functions/index.js`, first service):
  categorical skill bands mapped to integer ranks, fixed 2v2 matches,
  join/leave/edit/delete handlers;
* the "middle" revision (`src/functions/index.js`, second service):
  creation passes the request payload through to storage, join updates
  only the `players` field;
* the "level-aware" revision (`src/unnamed/part_000`): numeric levels
  1..7, mode `1v1`/`2v2`, level-eligibility checks on join.

The handlers manipulate schemaless Firestore documents, so dynamically
typed field values are modelled by an explicit value type `JVal`, and
JavaScript's `Number(...)` coercion, truthiness and `typeof x ===
'number'` tests are modelled by functions on `JVal`.  Server timestamps
(`serverTimestamp()`) are opaque external values; creation times are
modelled as natural numbers supplied by the caller, and `updatedAt`
(never read by any handler) is not modelled.
-/

deriving instance DecidableEq for Except

namespace PadelPoint

/-- Exact rational numbers as normalized numerator/denominator pairs,
used to model JavaScript numbers (every numeric value these handlers
store, derive or compare is a small multiple of `0.5`, on which IEEE
double arithmetic is exact).  A separate type rather than `ℚ` so that
all arithmetic reduces inside the kernel and concrete runs can be
settled by `decide`. -/
structure JNum where
  num : Int
  den : Nat
  deriving Repr, DecidableEq, Inhabited

namespace JNum

/-- Build the normalized representative of `n / d` (callers always pass
`d ≠ 0`). -/
def mk' (n : Int) (d : Nat) : JNum :=
  let g : Nat := n.gcd d
  ⟨n / g, d / g⟩

def ofNat (n : Nat) : JNum := ⟨n, 1⟩

def half : JNum := ⟨1, 2⟩

def add (a b : JNum) : JNum := mk' (a.num * b.den + b.num * a.den) (a.den * b.den)

def sub (a b : JNum) : JNum := mk' (a.num * b.den - b.num * a.den) (a.den * b.den)

/-- `a <= b` (denominators are positive for every value the model
builds, so cross multiplication preserves the order). -/
def ble (a b : JNum) : Bool := a.num * b.den ≤ b.num * a.den

/-- `a < b`. -/
def blt (a b : JNum) : Bool := a.num * b.den < b.num * a.den

/-- `Math.max` on two numbers (the `NaN` case is handled by callers). -/
def jmax (a b : JNum) : JNum := if ble a b then b else a

/-- `Math.min` on two numbers. -/
def jmin (a b : JNum) : JNum := if ble a b then a else b

end JNum

/-- A dynamically typed JSON / Firestore field value.  `jnan` is the
JavaScript number `NaN` (which has `typeof _ === 'number'` but no
rational value); `jabsent` is a missing field / `undefined`. -/
inductive JVal where
  | jnum (q : JNum)
  | jnan
  | jstr (s : String)
  | jbool (b : Bool)
  | jnull
  | jabsent
  deriving Repr, DecidableEq, Inhabited

namespace JVal

/-- JavaScript `typeof v === 'number'` (true for `NaN` as well). -/
def isNumberType : JVal → Bool
  | jnum _ => true
  | jnan => true
  | _ => false

/-- `ToNumber` on a string, for the string forms occurring here:
`""` gives `0`, a run of decimal digits gives its value, anything else
gives `NaN` (fractional or signed numeric strings do not occur in the
repository's stored data). -/
def strToNumber (s : String) : Option JNum :=
  if s = "" then some (JNum.ofNat 0)
  else if s.data.all Char.isDigit then
    some (JNum.ofNat (s.data.foldl (fun n c => 10 * n + (c.toNat - 48)) 0))
  else none

/-- JavaScript `Number(v)`: `none` models `NaN`. -/
def jsNumber : JVal → Option JNum
  | jnum q => some q
  | jnan => none
  | jstr s => strToNumber s
  | jbool b => some (JNum.ofNat (if b then 1 else 0))
  | jnull => some (JNum.ofNat 0)
  | jabsent => none

/-- JavaScript truthiness of a field value. -/
def truthy : JVal → Bool
  | jnum q => q != JNum.ofNat 0
  | jnan => false
  | jstr s => s != ""
  | jbool b => b
  | jnull => false
  | jabsent => false

/-- JavaScript `n >= v` for a number `n` and a field value `v`
(`v` is coerced with `ToNumber`; any comparison with `NaN` is false). -/
def numGe (n : JNum) (v : JVal) : Bool :=
  match jsNumber v with
  | some q => JNum.ble q n
  | none => false

/-- JavaScript `v >= w` between two field values where at least one side
is a number (both sides coerced with `ToNumber`; `NaN` makes the
comparison false).  The string/string lexicographic case never arises
in the handlers, which guard the number-typed side first. -/
def jsGe (v w : JVal) : Bool :=
  match jsNumber v, jsNumber w with
  | some a, some b => JNum.ble b a
  | _, _ => false

/-- JavaScript `v <= w`, same coercion rules as `jsGe`. -/
def jsLe (v w : JVal) : Bool :=
  match jsNumber v, jsNumber w with
  | some a, some b => JNum.ble a b
  | _, _ => false

end JVal

open JVal

/-- A stored match document.  Field values that the handlers inspect
dynamically (`maxPlayers`, level bounds, ranks) are kept as `JVal`;
`players` is always written as an array of uid strings by every
handler, so it is a `List String`. -/
structure Match where
  title : String
  date : Option String
  time : Option String
  location : Option String
  zone : Option String
  mode : Option String
  levelMin : JVal
  levelMax : JVal
  levelMinRank : JVal
  levelMaxRank : JVal
  maxPlayers : JVal
  players : List String
  status : String
  createdBy : String
  createdAt : Nat
  deriving Repr, DecidableEq, Inhabited

/-- A stored profile document, restricted to the fields the match
handlers read (`level` for eligibility, `zone` for the created match's
default zone). -/
structure Profile where
  level : JVal
  zone : Option String
  deriving Repr, DecidableEq

/-- One Firestore `update(...)` call issued by a join handler: the
fields present in the update object.  (`updatedAt`, written by the band
revision's update and never read back, is not modelled.) -/
structure WriteOp where
  players : Option (List String) := none
  status : Option String := none
  deriving Repr, DecidableEq

/-- Apply one update to a stored document: fields present in the update
replace the stored ones, all other fields keep their values. -/
def applyWrite (m : Match) (w : WriteOp) : Match :=
  { m with players := w.players.getD m.players, status := w.status.getD m.status }

/-- Apply a sequence of updates in order. -/
def applyWrites (m : Match) (ws : List WriteOp) : Match :=
  ws.foldl applyWrite m

/-- `FieldValue.arrayUnion(x)` on an array that the handler has already
read: appends `x` unless it is already present. -/
def unionAdd (l : List String) (x : String) : List String :=
  if x ∈ l then l else l ++ [x]

/-! ### Band revision (`src/functions/index.js`, first service)

Categorical skill bands `8va..3ra` mapped to integer ranks 1..6,
fixed 2v2 matches (`maxPlayers = 4`). -/

/-- `BAND_RANK` table lookup on a string key. -/
def bandRankQ : String → Option JNum
  | "8va" => some (JNum.ofNat 1)
  | "7ma" => some (JNum.ofNat 2)
  | "6ta" => some (JNum.ofNat 3)
  | "5ta" => some (JNum.ofNat 4)
  | "4ta" => some (JNum.ofNat 5)
  | "3ra" => some (JNum.ofNat 6)
  | _ => none

/-- `rankOf(b) = BAND_RANK[b] ?? null` on a dynamic value: a non-string
key is looked up by its string form, which is never a band name, so it
yields `null`. -/
def rankOf : JVal → JVal
  | JVal.jstr s => (bandRankQ s).elim JVal.jnull JVal.jnum
  | _ => JVal.jnull

/-- `Number(v) || 4`: the JavaScript coercion with fallback `4` when the
coerced value is `NaN` or `0`. -/
def numberOr4 (v : JVal) : JNum :=
  match jsNumber v with
  | some q => if q = JNum.ofNat 0 then JNum.ofNat 4 else q
  | none => JNum.ofNat 4

/-- Body of the band revision's `POST /matches`; string fields use `""`
for an absent (falsy) value, matching how `||` defaults treat them. -/
structure BandCreateBody where
  title : String := ""
  date : String := ""
  time : String := ""
  location : String := ""
  zone : String := ""
  levelMin : JVal := JVal.jabsent
  levelMax : JVal := JVal.jabsent
  deriving Repr, DecidableEq

/-- `x || null` stored as an optional string field. -/
def orNull (s : String) : Option String :=
  if s = "" then none else some s

/-- Band revision `POST /matches`: fixed `mode='2v2'`, `maxPlayers=4`,
band bounds defaulted to the extremes, creator as sole player,
`status = players.length >= 4 ? 'full' : 'open'`. -/
def createMatchBand (uid : String) (ts : Nat) (b : BandCreateBody) : Match :=
  let players : List String := [uid]
  let levelMinBand := if truthy b.levelMin then b.levelMin else JVal.jstr "8va"
  let levelMaxBand := if truthy b.levelMax then b.levelMax else JVal.jstr "3ra"
  { title := (if b.title = "" then "Partido" else b.title).trim
    date := orNull b.date
    time := orNull b.time
    location := orNull b.location
    zone := orNull b.zone
    mode := some "2v2"
    levelMin := levelMinBand
    levelMax := levelMaxBand
    levelMinRank := rankOf levelMinBand
    levelMaxRank := rankOf levelMaxBand
    maxPlayers := JVal.jnum (JNum.ofNat 4)
    players := players
    status := if players.length ≥ 4 then "full" else "open"
    createdBy := uid
    createdAt := ts }

/-- The error paths of the join/leave handlers, one constructor per
`res.status(...)` return.  Per the error taxonomy, `profileIncomplete`
is a `ValidationError`, `notFound` a `NotFound`, the rest business-rule
`Conflict`s (all surfaced as HTTP 400 except `notFound`, 404). -/
inductive JoinError where
  | notFound
  | profileIncomplete
  | isCreator
  | matchClosed
  | alreadyJoined
  | matchFull
  | levelMismatch
  deriving Repr, DecidableEq

/-- Band revision `POST /matches/:id/join` on an existing match:
creator, duplicate-member and capacity checks, then one update writing
the enlarged `players` and the re-derived `status` together. -/
def joinMatchBand (m : Match) (uid : String) : Except JoinError WriteOp :=
  let players := m.players
  let maxPlayers := numberOr4 m.maxPlayers
  if m.createdBy = uid then .error .isCreator
  else if uid ∈ players then .error .alreadyJoined
  else if JNum.ble maxPlayers (JNum.ofNat players.length) then .error .matchFull
  else .ok { players := some (unionAdd players uid)
             status := some (if JNum.ble maxPlayers (JNum.ofNat (players.length + 1))
               then "full" else "open") }

/-- Error paths of the band revision's leave handler (both are
business-rule `Conflict`s, HTTP 400). -/
inductive LeaveError where
  | notMember
  | creatorCannotLeave
  deriving Repr, DecidableEq

/-- Band revision `POST /matches/:id/leave` on an existing match:
membership check, then creator check, then one update with
`arrayRemove(uid)` and `status` unconditionally `'open'`. -/
def leaveMatch (m : Match) (uid : String) : Except LeaveError Match :=
  if uid ∉ m.players then .error .notMember
  else if m.createdBy = uid then .error .creatorCannotLeave
  else .ok { m with players := m.players.filter (fun p => p ≠ uid), status := "open" }

/-- Post-state of a leave request: an error path returns before any
`update(...)` call, so the stored record is unchanged. -/
def leaveStep (m : Match) (uid : String) : Match :=
  match leaveMatch m uid with
  | .error _ => m
  | .ok m1 => m1

/-- Body of the band revision's `PUT /matches/:id`: `none` models a
field that is absent (or `null`) in the request, which the handler's
`??` defaults leave unchanged. -/
structure EditBody where
  title : Option String := none
  date : Option String := none
  time : Option String := none
  location : Option String := none
  zone : Option String := none
  levelMin : Option JVal := none
  levelMax : Option JVal := none
  deriving Repr, DecidableEq

inductive EditError where
  | forbidden
  deriving Repr, DecidableEq

/-- Band revision `PUT /matches/:id` on an existing match: only the
creator may edit; the patch object holds exactly title, date, time,
location, zone, the level bounds and their re-derived ranks (plus the
unmodelled `updatedAt`), merged over the stored record by
`ref.update(patch)`. -/
def editMatch (m : Match) (uid : String) (b : EditBody) : Except EditError Match :=
  if m.createdBy ≠ uid then .error .forbidden
  else .ok
    { m with
      title := b.title.getD m.title
      date := match b.date with | some s => some s | none => m.date
      time := match b.time with | some s => some s | none => m.time
      location := match b.location with | some s => some s | none => m.location
      zone := match b.zone with | some s => some s | none => m.zone
      levelMin := b.levelMin.getD m.levelMin
      levelMax := b.levelMax.getD m.levelMax
      levelMinRank :=
        match b.levelMin with
        | some v => if truthy v then rankOf v else m.levelMinRank
        | none => m.levelMinRank
      levelMaxRank :=
        match b.levelMax with
        | some v => if truthy v then rankOf v else m.levelMaxRank
        | none => m.levelMaxRank }

/-- Insert into a list sorted by `createdAt` descending. -/
def insertByCreated (m : Match) : List Match → List Match
  | [] => [m]
  | x :: xs => if x.createdAt ≤ m.createdAt then m :: x :: xs else x :: insertByCreated m xs

/-- Sort by `createdAt` descending (the in-memory
`sort((a,b) => b.createdAt - a.createdAt)` / `orderBy('createdAt','desc')`),
as an insertion sort. -/
def sortByCreatedDesc : List Match → List Match
  | [] => []
  | x :: xs => insertByCreated x (sortByCreatedDesc xs)

/-- Band revision `GET /matches` with `?levelBand=&date=` filters: with
a filter present the query runs without `orderBy` (first 50 in storage
order), the upper rank bound is applied in memory, and the sort is
re-done in memory; without filters the store orders and limits.  A
Firestore range filter on a number matches only number-valued fields
(`NaN` excluded). -/
def listMatchesBand (db : List Match) (levelBand : Option String) (date : Option String) :
    List Match :=
  let levelRank : Option JNum := match levelBand with
    | some b => bandRankQ b
    | none => none
  let hasFilter := date.isSome || levelRank.isSome
  let q1 := match date with
    | some d => db.filter (fun m => m.date = some d)
    | none => db
  let q2 := match levelRank with
    | some r => q1.filter (fun m => match m.levelMinRank with
        | JVal.jnum q => JNum.ble q r
        | _ => false)
    | none => q1
  if hasFilter then
    let items := q2.take 50
    let items := match levelRank with
      | some r => items.filter (fun m => match m.levelMaxRank with
          | JVal.jnum q => JNum.ble r q
          | JVal.jnan => false
          | _ => true)
      | none => items
    sortByCreatedDesc items
  else
    (sortByCreatedDesc q2).take 50

/-! ### Middle revision (`src/functions/index.js`, second service)

Creation persists the request payload after overriding `createdBy`,
`createdAt`, and defaulting `players`/`status`; join updates only the
`players` field. -/

/-- Body of the middle revision's `POST /matches`.  `players = none`
models an absent or non-array value, `some l` an array `l` (the handler
keeps it only when it is a non-empty array); `status = ""` models an
absent (falsy) status.  All other payload fields pass through to the
stored document unchanged. -/
structure MidCreateBody where
  title : String := ""
  date : Option String := none
  time : Option String := none
  location : Option String := none
  zone : Option String := none
  mode : Option String := none
  levelMin : JVal := JVal.jabsent
  levelMax : JVal := JVal.jabsent
  maxPlayers : JVal := JVal.jabsent
  players : Option (List String) := none
  status : String := ""
  deriving Repr, DecidableEq

/-- Middle revision `POST /matches`: the payload becomes the document;
`players` defaults to `[creator]` only when the body's value is not a
non-empty array, `status` defaults to `'open'` only when falsy. -/
def createMatchMid (uid : String) (ts : Nat) (b : MidCreateBody) : Match :=
  { title := b.title
    date := b.date
    time := b.time
    location := b.location
    zone := b.zone
    mode := b.mode
    levelMin := b.levelMin
    levelMax := b.levelMax
    levelMinRank := JVal.jabsent
    levelMaxRank := JVal.jabsent
    maxPlayers := b.maxPlayers
    players := match b.players with
      | some l => if l.length ≠ 0 then l else [uid]
      | none => [uid]
    status := if b.status = "" then "open" else b.status
    createdBy := uid
    createdAt := ts }

/-- `players.length >= maxPlayers` where `maxPlayers` is
`typeof m.maxPlayers === 'number' ? m.maxPlayers : 4` — the capacity
test shared by the middle and level-aware joins.  A stored `NaN` is
number-typed, and every comparison against `NaN` is false. -/
def atCapacity (count : Nat) (maxPlayers : JVal) : Bool :=
  match maxPlayers with
  | JVal.jnum q => JNum.ble q (JNum.ofNat count)
  | JVal.jnan => false
  | _ => 4 ≤ count

/-- Middle revision `POST /matches/:id/join`: existence, duplicate and
capacity checks only (no creator, status or level check), then a single
update writing only `players`. -/
def joinMatchMid (mm : Option Match) (uid : String) : Except JoinError WriteOp :=
  match mm with
  | none => .error .notFound
  | some m =>
    let players := m.players
    if uid ∈ players then .error .alreadyJoined
    else if atCapacity players.length m.maxPlayers then .error .matchFull
    else .ok { players := some (unionAdd players uid) }

/-- One sequential request against the middle revision's store: a match
creation or a join aimed at the `i`-th stored match. -/
inductive MidOp where
  | create (uid : String) (ts : Nat) (b : MidCreateBody)
  | join (i : Nat) (uid : String)
  deriving Repr

/-- Sequential execution of one middle-revision request against the
store (a list of match documents; `add` appends, a join error leaves
the store unchanged). -/
def midStep (s : List Match) : MidOp → List Match
  | .create uid ts b => s ++ [createMatchMid uid ts b]
  | .join i uid =>
    match s[i]? with
    | none => s
    | some m =>
      match joinMatchMid (some m) uid with
      | .error _ => s
      | .ok w => s.set i (applyWrite m w)

/-- The store reached by a sequence of middle-revision requests,
starting from an empty collection. -/
def midRun (ops : List MidOp) : List Match :=
  ops.foldl midStep []

/-- The effective capacity a stored `maxPlayers` value denotes in the
middle revision's capacity test (number-typed values count as
themselves, anything else as 4); a stored `NaN` has no effective
capacity at all, so it is excluded separately where a bound is needed. -/
def capOfVal : JVal → JNum
  | JVal.jnum q => q
  | _ => JNum.ofNat 4

/-! ### Level-aware revision (`src/unnamed/part_000`)

Numeric levels 1..7 on profiles, mode `1v1`/`2v2`, derived eligibility
bounds on creation, level-eligibility check on join, and a two-step
join update (players first, then status once full). -/

/-- Body of the level-aware `POST /matches`; string fields use `""` for
an absent (falsy) value. -/
structure LACreateBody where
  title : String := ""
  date : String := ""
  time : String := ""
  location : String := ""
  zone : String := ""
  mode : String := ""
  levelMin : JVal := JVal.jabsent
  levelMax : JVal := JVal.jabsent
  deriving Repr, DecidableEq

/-- Error paths of the level-aware create handler: `profileIncomplete`
when the caller's profile lacks a (truthy) level, `badMode` for an
unrecognised mode, `badLevels` when the derived `levelMin` exceeds
`levelMax` — all `ValidationError`s (HTTP 400), returned before the
`add(...)` call, so no record is persisted. -/
inductive CreateError where
  | profileIncomplete
  | badMode
  | badLevels
  deriving Repr, DecidableEq

/-- `Math.max(1, level - 0.5)` on the raw profile level (coerced with
`ToNumber`; `NaN` propagates). -/
def defaultLvlMin (lv : JVal) : Option JNum :=
  (jsNumber lv).map (fun l => JNum.jmax (JNum.ofNat 1) (JNum.sub l JNum.half))

/-- `Math.min(7, level + 0.5)` on the raw profile level. -/
def defaultLvlMax (lv : JVal) : Option JNum :=
  (jsNumber lv).map (fun l => JNum.jmin (JNum.ofNat 7) (JNum.add l JNum.half))

/-- JavaScript `a > b` where either side may be `NaN` (then false). -/
def optGt : Option JNum → Option JNum → Bool
  | some a, some b => JNum.blt b a
  | _, _ => false

/-- The creation handler's `lvlMin`:
`Number.isFinite(Number(levelMin)) ? Number(levelMin) : Math.max(1, myProfile.level - 0.5)`. -/
def derivedLvlMin (p : Profile) (b : LACreateBody) : Option JNum :=
  match jsNumber b.levelMin with
  | some q => some q
  | none => defaultLvlMin p.level

/-- The creation handler's `lvlMax`:
`Number.isFinite(Number(levelMax)) ? Number(levelMax) : Math.min(7, myProfile.level + 0.5)`. -/
def derivedLvlMax (p : Profile) (b : LACreateBody) : Option JNum :=
  match jsNumber b.levelMax with
  | some q => some q
  | none => defaultLvlMax p.level

/-- Level-aware `POST /matches`: requires a profile with a truthy
`level`, a mode in `{1v1, 2v2}` (giving `maxPlayers` 2 or 4), defaults
an omitted or non-numeric bound from the creator's level `± 0.5`
clamped to `[1, 7]`, rejects `levelMin > levelMax`, and persists the
creator as the sole player with `status = 'open'`. -/
def createMatchLA (prof : Option Profile) (uid : String) (ts : Nat) (b : LACreateBody) :
    Except CreateError Match :=
  match prof with
  | none => .error .profileIncomplete
  | some p =>
    if ¬ truthy p.level then .error .profileIncomplete
    else if b.mode ≠ "1v1" ∧ b.mode ≠ "2v2" then .error .badMode
    else if optGt (derivedLvlMin p b) (derivedLvlMax p b) then .error .badLevels
    else .ok
      { title := if b.title ≠ "" then b.title
          else if b.location ≠ "" then b.location else "Partido"
        date := orNull b.date
        time := orNull b.time
        location := orNull b.location
        zone := if b.zone ≠ "" then some b.zone else p.zone
        mode := some b.mode
        levelMin := ((derivedLvlMin p b).map JVal.jnum).getD JVal.jnan
        levelMax := ((derivedLvlMax p b).map JVal.jnum).getD JVal.jnan
        levelMinRank := JVal.jabsent
        levelMaxRank := JVal.jabsent
        maxPlayers := JVal.jnum (JNum.ofNat (if b.mode = "1v1" then 2 else 4))
        players := [uid]
        status := "open"
        createdBy := uid
        createdAt := ts }

/-- The level-aware join's eligibility test `lvlOk`: each bound applies
only when the stored field is number-typed. -/
def levelCompatible (p : Profile) (m : Match) : Bool :=
  (!isNumberType m.levelMin || jsGe p.level m.levelMin) &&
  (!isNumberType m.levelMax || jsLe p.level m.levelMax)

/-- Level-aware `POST /matches/:id/join`: the joiner's profile level is
checked first, then existence, status, duplicate membership, capacity
and level eligibility; on success the handler issues an update writing
`players`, re-reads, and issues a second update setting `status` to
`'full'` when the re-read count has reached `maxPlayers`. -/
def joinMatchLA (prof : Option Profile) (mm : Option Match) (uid : String) :
    Except JoinError (List WriteOp) :=
  match prof with
  | none => .error .profileIncomplete
  | some p =>
    if ¬ truthy p.level then .error .profileIncomplete
    else match mm with
    | none => .error .notFound
    | some m =>
      let players := m.players
      if m.status ≠ "open" then .error .matchClosed
      else if uid ∈ players then .error .alreadyJoined
      else if atCapacity players.length m.maxPlayers then .error .matchFull
      else if ¬ levelCompatible p m then .error .levelMismatch
      else
        let w1 : WriteOp := { players := some (unionAdd players uid) }
        let m1 := applyWrite m w1
        if numGe (JNum.ofNat m1.players.length) m1.maxPlayers then
          .ok [w1, { status := some "full" }]
        else .ok [w1]

/-- Level-aware `GET /matches`: the store filters `status == 'open'`,
the optional `date`/`zone` equalities and the single inequality
`levelMin <= level` (a number-only range filter), orders by creation
time descending and limits to 50; the second inequality
`levelMax >= level` is evaluated in application memory, where a record
whose `levelMax` is not number-typed always passes. -/
def listMatchesLA (db : List Match) (level : Option JNum) (date : Option String)
    (zone : Option String) : List Match :=
  let q0 := db.filter (fun m => m.status = "open")
  let q1 := match date with
    | some d => q0.filter (fun m => m.date = some d)
    | none => q0
  let q2 := match zone with
    | some z => q1.filter (fun m => m.zone = some z)
    | none => q1
  let q3 := match level with
    | some l => q2.filter (fun m => match m.levelMin with
        | JVal.jnum q => JNum.ble q l
        | _ => false)
    | none => q2
  let fetched := (sortByCreatedDesc q3).take 50
  match level with
  | some l => fetched.filter (fun m => match m.levelMax with
      | JVal.jnum q => JNum.ble l q
      | JVal.jnan => false
      | _ => true)
  | none => fetched

/-! ### Side conditions and sequential-run invariants -/

/-- A middle-revision creation body that leaves `players` to the
`[creator]` default and whose `maxPlayers` denotes an effective integer
capacity of at least one (a number-typed value must be a positive
integer in normalized form; `NaN` is excluded because the capacity test
never fires against it; any other non-number value falls back to 4). -/
def goodCreateBody (b : MidCreateBody) : Bool :=
  (match b.players with
   | none => true
   | some l => l.isEmpty) &&
  (match b.maxPlayers with
   | JVal.jnum q => decide (1 ≤ q.num) && (q.den == 1)
   | JVal.jnan => false
   | _ => true)

/-- A middle-revision request whose creation body (if any) is good. -/
def goodOp : MidOp → Bool
  | .create _ _ b => goodCreateBody b
  | .join _ _ => true

/-- The capacity invariant on a stored match: its `maxPlayers` denotes
an effective integer capacity `k` (not `NaN`), and the player count is
within it. -/
def CapInv (m : Match) : Prop :=
  ∃ k : ℕ, m.maxPlayers ≠ JVal.jnan ∧ capOfVal m.maxPlayers = JNum.ofNat k ∧
    m.players.length ≤ k

/-! ### Concrete fixtures -/

/-- A stored open 2v2 match holding three of four players, created by
`a`: the shape every revision's create/join leaves behind. -/
def mOpen3 : Match :=
  { title := "Partido"
    date := none
    time := none
    location := none
    zone := none
    mode := some "2v2"
    levelMin := JVal.jabsent
    levelMax := JVal.jabsent
    levelMinRank := JVal.jabsent
    levelMaxRank := JVal.jabsent
    maxPlayers := JVal.jnum (JNum.ofNat 4)
    players := ["a", "b", "c"]
    status := "open"
    createdBy := "a"
    createdAt := 0 }

/-- A profile with numeric level 4. -/
def profLevel4 : Profile := { level := JVal.jnum (JNum.ofNat 4), zone := none }

/-- A profile with numeric level 4.5. -/
def profLevel45 : Profile := { level := JVal.jnum ⟨9, 2⟩, zone := none }

/-- A middle-revision creation body carrying five players and
`maxPlayers = 4`. -/
def midBodyFivePlayers : MidCreateBody :=
  { players := some ["a", "b", "c", "d", "e"]
    maxPlayers := JVal.jnum (JNum.ofNat 4) }

/-- A middle-revision creation body carrying a foreign player list and
an explicit status. -/
def midBodyForeign : MidCreateBody :=
  { players := some ["x"]
    status := "full" }

/-- A well-behaved middle-revision request sequence: create a 1v1-sized
match (capacity 2), then two join attempts. -/
def midOpsDefaulted : List MidOp :=
  [MidOp.create "u" 0 { maxPlayers := JVal.jnum (JNum.ofNat 2) },
   MidOp.join 0 "v", MidOp.join 0 "w"]

/-- A stored match whose `maxPlayers` is the boolean `true` (not a
number), with two members and a third-party creator. -/
def mBoolCap : Match :=
  { mOpen3 with maxPlayers := JVal.jbool true, players := ["a", "b"], createdBy := "c" }

/-- A stored open match with numeric bounds `[3, 5]`. -/
def mBounds35 : Match :=
  { mOpen3 with levelMin := JVal.jnum (JNum.ofNat 3), levelMax := JVal.jnum (JNum.ofNat 5) }

/-- The record the band edit produces on `mOpen3` when the body carries
only a new title. -/
def mEdited : Match := { mOpen3 with title := "x" }

/-- The record the level-aware create persists for a level-4 creator
and a body carrying only `mode = "1v1"`: derived bounds `[3.5, 4.5]`,
capacity 2, creator as sole player. -/
def laCreated : Match :=
  { title := "Partido"
    date := none
    time := none
    location := none
    zone := none
    mode := some "1v1"
    levelMin := JVal.jnum ⟨7, 2⟩
    levelMax := JVal.jnum ⟨9, 2⟩
    levelMinRank := JVal.jabsent
    levelMaxRank := JVal.jabsent
    maxPlayers := JVal.jnum (JNum.ofNat 2)
    players := ["u"]
    status := "open"
    createdBy := "u"
    createdAt := 0 }

/-! ### Helper lemmas -/

theorem JNum.ble_ofNat {a b : ℕ} :
    JNum.ble (JNum.ofNat a) (JNum.ofNat b) = decide (a ≤ b) := by
  simp [JNum.ble, JNum.ofNat]

theorem JNum.ofNat_inj {a b : ℕ} (h : JNum.ofNat a = JNum.ofNat b) : a = b := by
  simpa [JNum.ofNat] using h

theorem length_unionAdd_of_not_mem {l : List String} {x : String} (h : x ∉ l) :
    (unionAdd l x).length = l.length + 1 := by
  simp [unionAdd, h]

theorem length_filter_ne_lt {x : String} :
    ∀ {l : List String}, x ∈ l → (l.filter (fun p => p ≠ x)).length < l.length := by
  intro l hx
  induction l with
  | nil => cases hx
  | cons a l ih =>
    rcases List.mem_cons.mp hx with rfl | hx
    · simp only [List.filter_cons]
      have : (decide (x ≠ x)) = false := by simp
      rw [this]
      exact Nat.lt_succ_of_le (List.length_filter_le _ _)
    · by_cases hax : a = x
      · subst hax
        simp only [List.filter_cons]
        have : (decide (a ≠ a)) = false := by simp
        rw [this]
        exact Nat.lt_succ_of_le (List.length_filter_le _ _)
      · simp only [List.filter_cons, hax]
        have : (decide (a ≠ x)) = true := by simp [hax]
        rw [this]
        simpa using Nat.succ_lt_succ (ih hx)

theorem length_insertByCreated (m : Match) (l : List Match) :
    (insertByCreated m l).length = l.length + 1 := by
  induction l with
  | nil => rfl
  | cons x xs ih =>
    by_cases h : x.createdAt ≤ m.createdAt <;> simp [insertByCreated, h, ih]

theorem mem_insertByCreated {a m : Match} {l : List Match} :
    a ∈ insertByCreated m l ↔ a = m ∨ a ∈ l := by
  induction l with
  | nil => simp [insertByCreated]
  | cons x xs ih =>
    by_cases h : x.createdAt ≤ m.createdAt
    · simp [insertByCreated, h]
    · simp only [insertByCreated, h, if_false, List.mem_cons, ih]
      tauto

theorem length_sortByCreatedDesc (l : List Match) :
    (sortByCreatedDesc l).length = l.length := by
  induction l with
  | nil => rfl
  | cons x xs ih => simp [sortByCreatedDesc, length_insertByCreated, ih]

theorem mem_sortByCreatedDesc {a : Match} {l : List Match} :
    a ∈ sortByCreatedDesc l ↔ a ∈ l := by
  induction l with
  | nil => simp [sortByCreatedDesc]
  | cons x xs ih => simp [sortByCreatedDesc, mem_insertByCreated, ih]

theorem capInv_createMatchMid {uid : String} {ts : Nat} {b : MidCreateBody}
    (h : goodCreateBody b = true) : CapInv (createMatchMid uid ts b) := by
  unfold goodCreateBody at h
  rw [Bool.and_eq_true] at h
  obtain ⟨hp, hc⟩ := h
  have hplayers : (createMatchMid uid ts b).players = [uid] := by
    unfold createMatchMid
    cases hb : b.players with
    | none => simp
    | some l =>
      rw [hb] at hp
      simp only [List.isEmpty_iff] at hp
      simp [hp]
  have hmax : (createMatchMid uid ts b).maxPlayers = b.maxPlayers := rfl
  cases hv : b.maxPlayers with
  | jnum q =>
    rw [hv] at hc
    simp only [decide_eq_true_eq, Bool.and_eq_true, beq_iff_eq] at hc
    obtain ⟨h1, hden⟩ := hc
    refine ⟨q.num.toNat, ?_, ?_, ?_⟩
    · rw [hmax, hv]; intro hx; cases hx
    · rw [hmax, hv]
      show q = JNum.ofNat q.num.toNat
      cases q with
      | mk n d =>
        simp only [JNum.ofNat, JNum.mk.injEq]
        constructor
        · simp only at h1
          omega
        · simpa using hden
    · rw [hplayers]
      simp only [List.length_singleton]
      omega
  | jnan => rw [hv] at hc; cases hc
  | jstr s =>
    refine ⟨4, ?_, ?_, ?_⟩
    · rw [hmax, hv]; intro hx; cases hx
    · rw [hmax, hv]; rfl
    · rw [hplayers]; simp
  | jbool v =>
    refine ⟨4, ?_, ?_, ?_⟩
    · rw [hmax, hv]; intro hx; cases hx
    · rw [hmax, hv]; rfl
    · rw [hplayers]; simp
  | jnull =>
    refine ⟨4, ?_, ?_, ?_⟩
    · rw [hmax, hv]; intro hx; cases hx
    · rw [hmax, hv]; rfl
    · rw [hplayers]; simp
  | jabsent =>
    refine ⟨4, ?_, ?_, ?_⟩
    · rw [hmax, hv]; intro hx; cases hx
    · rw [hmax, hv]; rfl
    · rw [hplayers]; simp

theorem capInv_joinMid {m : Match} {uid : String} {w : WriteOp} (hInv : CapInv m)
    (h : joinMatchMid (some m) uid = .ok w) : CapInv (applyWrite m w) := by
  obtain ⟨k, hnan, hcap, hlen⟩ := hInv
  unfold joinMatchMid at h
  by_cases hmem : uid ∈ m.players
  · simp [hmem] at h
  · by_cases hfull : atCapacity m.players.length m.maxPlayers
    · simp [hmem, hfull] at h
    · simp only [hmem, hfull, if_false, Bool.false_eq_true, ite_false, Except.ok.injEq] at h
      have hw : w = { players := some (unionAdd m.players uid) } := by
        cases h; rfl
      subst hw
      have hmax : (applyWrite m { players := some (unionAdd m.players uid) }).maxPlayers
          = m.maxPlayers := rfl
      have hlen1 : (applyWrite m { players := some (unionAdd m.players uid) }).players.length
          = m.players.length + 1 := by
        simp [applyWrite, length_unionAdd_of_not_mem hmem]
      refine ⟨k, by rw [hmax]; exact hnan, by rw [hmax]; exact hcap, ?_⟩
      rw [hlen1]
      cases hv : m.maxPlayers with
      | jnum q =>
        rw [hv] at hcap
        have hq : q = JNum.ofNat k := hcap
        rw [hv, hq] at hfull
        simp only [atCapacity, JNum.ble_ofNat, decide_eq_true_eq] at hfull
        omega
      | jnan => exact absurd hv hnan
      | jstr s =>
        rw [hv] at hcap
        have hk : k = 4 := (JNum.ofNat_inj hcap).symm
        rw [hv] at hfull
        simp only [atCapacity, decide_eq_true_eq] at hfull
        omega
      | jbool v =>
        rw [hv] at hcap
        have hk : k = 4 := (JNum.ofNat_inj hcap).symm
        rw [hv] at hfull
        simp only [atCapacity, decide_eq_true_eq] at hfull
        omega
      | jnull =>
        rw [hv] at hcap
        have hk : k = 4 := (JNum.ofNat_inj hcap).symm
        rw [hv] at hfull
        simp only [atCapacity, decide_eq_true_eq] at hfull
        omega
      | jabsent =>
        rw [hv] at hcap
        have hk : k = 4 := (JNum.ofNat_inj hcap).symm
        rw [hv] at hfull
        simp only [atCapacity, decide_eq_true_eq] at hfull
        omega

theorem capInv_midStep {s : List Match} (hs : ∀ m ∈ s, CapInv m) {op : MidOp}
    (hop : goodOp op = true) : ∀ m ∈ midStep s op, CapInv m := by
  cases op with
  | create uid ts b =>
    intro m hm
    unfold midStep at hm
    rcases List.mem_append.mp hm with h | h
    · exact hs m h
    · rcases List.mem_singleton.mp h with rfl
      exact capInv_createMatchMid hop
  | join i uid =>
    intro m hm
    cases hg : s[i]? with
    | none =>
      simp only [midStep, hg] at hm
      exact hs m hm
    | some m0 =>
      cases hj : joinMatchMid (some m0) uid with
      | error e =>
        simp only [midStep, hg, hj] at hm
        exact hs m hm
      | ok w =>
        simp only [midStep, hg, hj] at hm
        rcases List.mem_or_eq_of_mem_set hm with h | h
        · exact hs m h
        · rw [h]
          exact capInv_joinMid (hs m0 (List.getElem?_mem hg)) hj

theorem capInv_midRun_aux (ops : List MidOp) :
    ∀ s : List Match, (∀ op ∈ ops, goodOp op = true) → (∀ m ∈ s, CapInv m) →
      ∀ m ∈ List.foldl midStep s ops, CapInv m := by
  induction ops with
  | nil =>
    intro s _ hs
    simpa using hs
  | cons op ops ih =>
    intro s hops hs
    simp only [List.foldl_cons]
    exact ih _ (fun o ho => hops o (List.mem_cons_of_mem _ ho))
      (capInv_midStep hs (hops op (List.mem_cons_self _ _)))

theorem joinMatchBand_ok_iff {m : Match} {uid : String} {w : WriteOp} :
    joinMatchBand m uid = .ok w ↔
      m.createdBy ≠ uid ∧ uid ∉ m.players ∧
      JNum.ble (numberOr4 m.maxPlayers) (JNum.ofNat m.players.length) = false ∧
      w = { players := some (unionAdd m.players uid)
            status := some (if JNum.ble (numberOr4 m.maxPlayers)
                (JNum.ofNat (m.players.length + 1)) then "full" else "open") } := by
  unfold joinMatchBand
  by_cases h1 : m.createdBy = uid
  · simp [h1]
  · by_cases h2 : uid ∈ m.players
    · simp [h1, h2]
    · by_cases h3 : JNum.ble (numberOr4 m.maxPlayers) (JNum.ofNat m.players.length) = true
      · simp [h1, h2, h3]
      · simp only [Bool.not_eq_true] at h3
        simp [h1, h2, h3]
        exact eq_comm

theorem joinMatchLA_ok_iff {p : Profile} {m : Match} {uid : String} {ws : List WriteOp} :
    joinMatchLA (some p) (some m) uid = .ok ws ↔
      truthy p.level = true ∧ m.status = "open" ∧ uid ∉ m.players ∧
      atCapacity m.players.length m.maxPlayers = false ∧
      levelCompatible p m = true ∧
      ws = (if numGe (JNum.ofNat (unionAdd m.players uid).length) m.maxPlayers
            then [{ players := some (unionAdd m.players uid) }, { status := some "full" }]
            else [{ players := some (unionAdd m.players uid) }]) := by
  unfold joinMatchLA
  by_cases h0 : truthy p.level = true
  · by_cases h1 : m.status = "open"
    · by_cases h2 : uid ∈ m.players
      · simp [h0, h1, h2]
      · by_cases h3 : atCapacity m.players.length m.maxPlayers = true
        · simp [h0, h1, h2, h3]
        · simp only [Bool.not_eq_true] at h3
          by_cases h4 : levelCompatible p m = true
          · by_cases h5 : numGe (JNum.ofNat (unionAdd m.players uid).length) m.maxPlayers = true
            · simp [h0, h1, h2, h3, h4, h5, applyWrite, eq_comm]
            · simp only [Bool.not_eq_true] at h5
              simp [h0, h1, h2, h3, h4, h5, applyWrite, eq_comm]
          · simp [h0, h1, h2, h3, h4]
    · simp [h0, h1]
  · simp [h0]

theorem atCapacity_of_not_number {v : JVal} (h : isNumberType v = false) (c : Nat) :
    atCapacity c v = decide (4 ≤ c) := by
  cases v <;> first | rfl | cases h

theorem createMatchLA_ok_iff {p : Profile} {uid : String} {ts : Nat} {b : LACreateBody}
    {m : Match} :
    createMatchLA (some p) uid ts b = .ok m ↔
      truthy p.level = true ∧ ¬(b.mode ≠ "1v1" ∧ b.mode ≠ "2v2") ∧
      optGt (derivedLvlMin p b) (derivedLvlMax p b) = false ∧
      m = { title := if b.title ≠ "" then b.title
              else if b.location ≠ "" then b.location else "Partido"
            date := orNull b.date
            time := orNull b.time
            location := orNull b.location
            zone := if b.zone ≠ "" then some b.zone else p.zone
            mode := some b.mode
            levelMin := ((derivedLvlMin p b).map JVal.jnum).getD JVal.jnan
            levelMax := ((derivedLvlMax p b).map JVal.jnum).getD JVal.jnan
            levelMinRank := JVal.jabsent
            levelMaxRank := JVal.jabsent
            maxPlayers := JVal.jnum (JNum.ofNat (if b.mode = "1v1" then 2 else 4))
            players := [uid]
            status := "open"
            createdBy := uid
            createdAt := ts } := by
  unfold createMatchLA
  by_cases h0 : truthy p.level = true
  · by_cases h1 : b.mode ≠ "1v1" ∧ b.mode ≠ "2v2"
    · simp [h0, h1]
    · by_cases h2 : optGt (derivedLvlMin p b) (derivedLvlMax p b) = true
      · simp [h0, h1, h2]
      · simp only [Bool.not_eq_true] at h2
        simp [h0, h1, h2]
        exact eq_comm
  · simp [h0]

/-! ### Claims -/

/-- **C1**, counterexample.  The claim says every record reachable by
create/join keeps `players.length <= maxPlayers` because creation
starts below the cap; but the middle revision's create persists the
request body's `players` array verbatim, so one create reaches a record
with five players and `maxPlayers = 4`. -/
theorem C1_counterexample :
    (midRun [MidOp.create "u" 0 midBodyFivePlayers]).map (fun m => m.players.length) = [5] ∧
    (midRun [MidOp.create "u" 0 midBodyFivePlayers]).map Match.maxPlayers
      = [JVal.jnum (JNum.ofNat 4)] ∧
    ¬ (5 : ℕ) ≤ 4 := by
  decide

/-- **C1**, amended.  In the middle revision, if every create request
leaves `players` to default to `[creator]` (absent or empty in the
body) and supplies a `maxPlayers` that is either a positive integer or
not number-typed (in which case the join treats the capacity as 4),
then every match record reachable by a sequential create/join run
satisfies `players.length <= effective capacity`: creation then starts
with one player and join refuses to add a member once
`players.length >= maxPlayers`. -/
theorem C1_players_within_capacity (ops : List MidOp)
    (hops : ∀ op ∈ ops, goodOp op = true) :
    ∀ m ∈ midRun ops, ∃ k : ℕ,
      capOfVal m.maxPlayers = JNum.ofNat k ∧ m.players.length ≤ k := by
  intro m hm
  obtain ⟨k, _, hcap, hlen⟩ := capInv_midRun_aux ops [] hops (by simp) m hm
  exact ⟨k, hcap, hlen⟩

/-- **C1**, witness: a concrete well-behaved run (create capacity 2,
two join attempts) whose resulting record satisfies the bound. -/
theorem C1_players_within_capacity_witness :
    (∀ op ∈ midOpsDefaulted, goodOp op = true) ∧
    (midRun midOpsDefaulted).headI ∈ midRun midOpsDefaulted ∧
    (∃ k : ℕ, capOfVal ((midRun midOpsDefaulted).headI.maxPlayers) = JNum.ofNat k ∧
      (midRun midOpsDefaulted).headI.players.length ≤ k) :=
  ⟨by decide, by decide,
    C1_players_within_capacity midOpsDefaulted (by decide) _ (by decide)⟩

/-- **C2**, counterexample.  The middle revision's join admits a fourth
player into a four-slot match but writes only `players`; the updated
record has `players.length = maxPlayers = 4` while `status` is still
`"open"`, so status is not re-derived after every membership change. -/
theorem C2_counterexample :
    joinMatchMid (some mOpen3) "d" = Except.ok { players := some ["a", "b", "c", "d"] } ∧
    (applyWrite mOpen3 { players := some ["a", "b", "c", "d"] }).players.length = 4 ∧
    (applyWrite mOpen3 { players := some ["a", "b", "c", "d"] }).maxPlayers
      = JVal.jnum (JNum.ofNat 4) ∧
    (applyWrite mOpen3 { players := some ["a", "b", "c", "d"] }).status = "open" := by
  decide

/-- **C2**, amended.  For the operations that do re-derive status —
band-revision create, join and leave, and the level-aware join — and a
stored integral capacity `maxPlayers = k`: after create and after a
successful join, `status = "full"` iff `players.length = k`; after a
successful leave (from a record within capacity), status is `"open"`
and the count differs from `k`, so the unconditional reset agrees with
the re-derivation.  The middle revision's join (counterexample) leaves
`status` untouched. -/
theorem C2_status_matches_count :
    (∀ (uid : String) (ts : Nat) (b : BandCreateBody),
      (createMatchBand uid ts b).status = "open" ∧
      ((createMatchBand uid ts b).status = "full" ↔
        (createMatchBand uid ts b).players.length = 4)) ∧
    (∀ (m : Match) (uid : String) (w : WriteOp) (k : ℕ),
      m.maxPlayers = JVal.jnum (JNum.ofNat k) → 1 ≤ k →
      joinMatchBand m uid = .ok w →
      ((applyWrite m w).status = "full" ↔ (applyWrite m w).players.length = k)) ∧
    (∀ (m : Match) (uid : String) (m1 : Match) (k : ℕ),
      m.maxPlayers = JVal.jnum (JNum.ofNat k) → m.players.length ≤ k →
      leaveMatch m uid = .ok m1 →
      m1.status = "open" ∧ m1.players.length ≠ k) ∧
    (∀ (p : Profile) (m : Match) (uid : String) (ws : List WriteOp) (k : ℕ),
      m.maxPlayers = JVal.jnum (JNum.ofNat k) →
      joinMatchLA (some p) (some m) uid = .ok ws →
      ((applyWrites m ws).status = "full" ↔ (applyWrites m ws).players.length = k)) := by
  refine ⟨?_, ?_, ?_, ?_⟩
  · intro uid ts b
    have hs : (createMatchBand uid ts b).status = "open" := rfl
    have hp : (createMatchBand uid ts b).players = [uid] := rfl
    refine ⟨hs, ?_⟩
    rw [hs, hp]
    constructor
    · intro h
      exact absurd h (by decide)
    · intro h
      simp at h
  · intro m uid w k hk h1k hok
    obtain ⟨hc, hmem, hfull, hw⟩ := joinMatchBand_ok_iff.mp hok
    have hk0 : JNum.ofNat k ≠ JNum.ofNat 0 := by
      intro h
      have := JNum.ofNat_inj h
      omega
    have hnum : numberOr4 m.maxPlayers = JNum.ofNat k := by
      rw [hk]
      simp only [numberOr4, jsNumber]
      simp [hk0]
    rw [hnum] at hfull hw
    rw [JNum.ble_ofNat] at hfull
    simp only [decide_eq_false_iff_not] at hfull
    subst hw
    have hstat : (applyWrite m
        { players := some (unionAdd m.players uid)
          status := some (if JNum.ble (JNum.ofNat k) (JNum.ofNat (m.players.length + 1))
            then "full" else "open") }).status
        = (if JNum.ble (JNum.ofNat k) (JNum.ofNat (m.players.length + 1))
            then "full" else "open") := rfl
    have hpl : (applyWrite m
        { players := some (unionAdd m.players uid)
          status := some (if JNum.ble (JNum.ofNat k) (JNum.ofNat (m.players.length + 1))
            then "full" else "open") }).players
        = unionAdd m.players uid := rfl
    rw [hstat, hpl, length_unionAdd_of_not_mem hmem, JNum.ble_ofNat]
    by_cases hf : k ≤ m.players.length + 1
    · rw [if_pos (decide_eq_true hf)]
      have heq : m.players.length + 1 = k := by omega
      simp [heq]
    · rw [if_neg (by simpa using hf)]
      constructor
      · intro h
        exact absurd h (by decide)
      · intro h
        exfalso
        omega
  · intro m uid m1 k hk hlen hok
    unfold leaveMatch at hok
    by_cases hmem : uid ∈ m.players
    · by_cases hcr : m.createdBy = uid
      · rw [if_neg (by simp [hmem]), if_pos hcr] at hok
        cases hok
      · rw [if_neg (by simp [hmem]), if_neg hcr] at hok
        injection hok with h2
        refine ⟨?_, ?_⟩
        · rw [← h2]
        · rw [← h2]
          show (m.players.filter (fun p => p ≠ uid)).length ≠ k
          have h3 := length_filter_ne_lt (l := m.players) hmem
          omega
    · rw [if_pos hmem] at hok
      cases hok
  · intro p m uid ws k hk hok
    obtain ⟨_, hst, hmem, hfull, _, hws⟩ := joinMatchLA_ok_iff.mp hok
    have hcap : atCapacity m.players.length m.maxPlayers = false := hfull
    rw [hk] at hcap
    simp only [atCapacity, JNum.ble_ofNat] at hcap
    rw [decide_eq_false_iff_not] at hcap
    have hlen1 : (unionAdd m.players uid).length = m.players.length + 1 :=
      length_unionAdd_of_not_mem hmem
    by_cases hge : numGe (JNum.ofNat (unionAdd m.players uid).length) m.maxPlayers = true
    · rw [if_pos hge] at hws
      subst hws
      have hfin : applyWrites m
          [{ players := some (unionAdd m.players uid) }, { status := some "full" }]
          = { m with players := unionAdd m.players uid, status := "full" } := rfl
      rw [hk] at hge
      simp only [numGe, jsNumber, JNum.ble_ofNat, decide_eq_true_eq] at hge
      rw [hlen1] at hge
      have heq : m.players.length + 1 = k := by omega
      rw [hfin]
      have hstat :
          ({ m with players := unionAdd m.players uid, status := "full" } : Match).status
          = "full" := rfl
      have hpl :
          ({ m with players := unionAdd m.players uid, status := "full" } : Match).players
          = unionAdd m.players uid := rfl
      rw [hstat, hpl, hlen1, heq]
      simp
    · simp only [Bool.not_eq_true] at hge
      rw [if_neg (by simp [hge])] at hws
      subst hws
      have hfin : applyWrites m [{ players := some (unionAdd m.players uid) }]
          = { m with players := unionAdd m.players uid } := rfl
      rw [hk] at hge
      simp only [numGe, jsNumber, JNum.ble_ofNat, decide_eq_false_iff_not] at hge
      rw [hlen1] at hge
      rw [hfin]
      have hstat : ({ m with players := unionAdd m.players uid } : Match).status
          = m.status := rfl
      have hpl : ({ m with players := unionAdd m.players uid } : Match).players
          = unionAdd m.players uid := rfl
      rw [hstat, hpl, hlen1, hst]
      constructor
      · intro h
        exact absurd h (by decide)
      · intro h
        exfalso
        omega

/-- **C2**, witness: a concrete filling band join yields status
`"full"` exactly at four players. -/
theorem C2_status_matches_count_witness :
    joinMatchBand mOpen3 "d"
      = .ok { players := some ["a", "b", "c", "d"], status := some "full" } ∧
    ((applyWrite mOpen3 { players := some ["a", "b", "c", "d"], status := some "full" }).status
        = "full" ↔
      (applyWrite mOpen3
          { players := some ["a", "b", "c", "d"], status := some "full" }).players.length = 4) :=
  ⟨by decide,
    C2_status_matches_count.2.1 mOpen3 "d" _ 4 (by decide) (by decide) (by decide)⟩

/-- **C3**, counterexample.  The level-aware join reads the joiner's
profile before looking the match up, so a join on a non-existent match
by a caller with no profile level returns the ValidationError
`profileIncomplete` ("Completá tu perfil"), not `NotFound` as the claim
states. -/
theorem C3_counterexample :
    joinMatchLA none none "u" = Except.error JoinError.profileIncomplete ∧
    joinMatchLA none none "u" ≠ Except.error JoinError.notFound := by
  decide

/-- **C3**, amended.  The level-aware join evaluates its preconditions
in this order — joiner's profile level (`ValidationError`) first, then
match existence (`NotFound`), then open status, then
not-already-a-member, then capacity, then level eligibility — and the
first failing condition determines the error. -/
theorem C3_precondition_order :
    (∀ (mm : Option Match) (uid : String),
      joinMatchLA none mm uid = .error .profileIncomplete) ∧
    (∀ (p : Profile) (mm : Option Match) (uid : String), truthy p.level = false →
      joinMatchLA (some p) mm uid = .error .profileIncomplete) ∧
    (∀ (p : Profile) (uid : String), truthy p.level = true →
      joinMatchLA (some p) none uid = .error .notFound) ∧
    (∀ (p : Profile) (m : Match) (uid : String), truthy p.level = true →
      m.status ≠ "open" →
      joinMatchLA (some p) (some m) uid = .error .matchClosed) ∧
    (∀ (p : Profile) (m : Match) (uid : String), truthy p.level = true →
      m.status = "open" → uid ∈ m.players →
      joinMatchLA (some p) (some m) uid = .error .alreadyJoined) ∧
    (∀ (p : Profile) (m : Match) (uid : String), truthy p.level = true →
      m.status = "open" → uid ∉ m.players →
      atCapacity m.players.length m.maxPlayers = true →
      joinMatchLA (some p) (some m) uid = .error .matchFull) ∧
    (∀ (p : Profile) (m : Match) (uid : String), truthy p.level = true →
      m.status = "open" → uid ∉ m.players →
      atCapacity m.players.length m.maxPlayers = false →
      levelCompatible p m = false →
      joinMatchLA (some p) (some m) uid = .error .levelMismatch) ∧
    (∀ (p : Profile) (m : Match) (uid : String), truthy p.level = true →
      m.status = "open" → uid ∉ m.players →
      atCapacity m.players.length m.maxPlayers = false →
      levelCompatible p m = true →
      ∃ ws, joinMatchLA (some p) (some m) uid = .ok ws) := by
  refine ⟨?_, ?_, ?_, ?_, ?_, ?_, ?_, ?_⟩
  · intro mm uid
    rfl
  · intro p mm uid h
    unfold joinMatchLA
    simp [h]
  · intro p uid h
    unfold joinMatchLA
    simp [h]
  · intro p m uid h h1
    unfold joinMatchLA
    simp [h, h1]
  · intro p m uid h h1 h2
    unfold joinMatchLA
    simp [h, h1, h2]
  · intro p m uid h h1 h2 h3
    unfold joinMatchLA
    simp [h, h1, h2, h3]
  · intro p m uid h h1 h2 h3 h4
    unfold joinMatchLA
    simp [h, h1, h2, h3, h4]
  · intro p m uid h h1 h2 h3 h4
    exact ⟨_, joinMatchLA_ok_iff.mpr ⟨h, h1, h2, h3, h4, rfl⟩⟩

/-- **C3**, witness: each precondition case exercised on a concrete
state. -/
theorem C3_precondition_order_witness :
    joinMatchLA none (some mOpen3) "u" = .error .profileIncomplete ∧
    joinMatchLA (some { level := JVal.jnull, zone := none }) none "u"
      = .error .profileIncomplete ∧
    joinMatchLA (some profLevel4) none "u" = .error .notFound ∧
    joinMatchLA (some profLevel4) (some { mOpen3 with status := "full" }) "u"
      = .error .matchClosed ∧
    joinMatchLA (some profLevel4) (some mOpen3) "a" = .error .alreadyJoined ∧
    joinMatchLA (some profLevel4) (some { mOpen3 with players := ["a", "b", "c", "d"] }) "u"
      = .error .matchFull ∧
    joinMatchLA (some profLevel4)
      (some { mOpen3 with levelMin := JVal.jnum (JNum.ofNat 5), levelMax := JVal.jnum (JNum.ofNat 6) })
      "u" = .error .levelMismatch ∧
    (∃ ws, joinMatchLA (some profLevel4) (some mOpen3) "d" = .ok ws) :=
  ⟨C3_precondition_order.1 (some mOpen3) "u",
   C3_precondition_order.2.1 _ none "u" (by decide),
   C3_precondition_order.2.2.1 profLevel4 "u" (by decide),
   C3_precondition_order.2.2.2.1 profLevel4 _ "u" (by decide) (by decide),
   C3_precondition_order.2.2.2.2.1 profLevel4 mOpen3 "a" (by decide) (by decide) (by decide),
   C3_precondition_order.2.2.2.2.2.1 profLevel4 _ "u" (by decide) (by decide) (by decide)
     (by decide),
   C3_precondition_order.2.2.2.2.2.2.1 profLevel4 _ "u" (by decide) (by decide) (by decide)
     (by decide) (by decide),
   C3_precondition_order.2.2.2.2.2.2.2 profLevel4 mOpen3 "d" (by decide) (by decide)
     (by decide) (by decide) (by decide)⟩

/-- **C4**, counterexample.  A successful level-aware join that fills
the match issues two separate updates — `players` first, then `status`
— and the intermediate state after the first write already has
`players.length = maxPlayers` while `status` is still `"open"`; the
fields are not persisted together as one single update. -/
theorem C4_counterexample :
    joinMatchLA (some profLevel4) (some mOpen3) "d"
      = .ok [{ players := some ["a", "b", "c", "d"] }, { status := some "full" }] ∧
    (applyWrite mOpen3 { players := some ["a", "b", "c", "d"] }).players.length = 4 ∧
    (applyWrite mOpen3 { players := some ["a", "b", "c", "d"] }).maxPlayers
      = JVal.jnum (JNum.ofNat 4) ∧
    (applyWrite mOpen3 { players := some ["a", "b", "c", "d"] }).status = "open" := by
  decide

/-- **C4**, amended.  The band revision persists the enlarged `players`
and the re-derived `status` together in one single update; the
level-aware revision instead issues one update writing only `players`
and, exactly when the new count reaches `maxPlayers`, a second update
setting `status` to `"full"`. -/
theorem C4_join_update_shape :
    (∀ (m : Match) (uid : String) (w : WriteOp),
      joinMatchBand m uid = .ok w →
      w.players = some (unionAdd m.players uid) ∧
      w.status = some (if JNum.ble (numberOr4 m.maxPlayers)
        (JNum.ofNat (m.players.length + 1)) then "full" else "open")) ∧
    (∀ (p : Profile) (m : Match) (uid : String) (ws : List WriteOp),
      joinMatchLA (some p) (some m) uid = .ok ws →
      (ws = [{ players := some (unionAdd m.players uid) }] ∧
        numGe (JNum.ofNat (unionAdd m.players uid).length) m.maxPlayers = false) ∨
      (ws = [{ players := some (unionAdd m.players uid) },
             { status := some "full" }] ∧
        numGe (JNum.ofNat (unionAdd m.players uid).length) m.maxPlayers = true)) := by
  constructor
  · intro m uid w hok
    obtain ⟨_, _, _, hw⟩ := joinMatchBand_ok_iff.mp hok
    subst hw
    exact ⟨rfl, rfl⟩
  · intro p m uid ws hok
    obtain ⟨_, _, _, _, _, hws⟩ := joinMatchLA_ok_iff.mp hok
    by_cases h5 : numGe (JNum.ofNat (unionAdd m.players uid).length) m.maxPlayers = true
    · right
      rw [if_pos h5] at hws
      exact ⟨hws, h5⟩
    · left
      simp only [Bool.not_eq_true] at h5
      rw [if_neg (by simp [h5])] at hws
      exact ⟨hws, h5⟩

/-- **C4**, witness: the two shapes on concrete joins — a single band
write carrying both fields, and the level-aware two-write sequence. -/
theorem C4_join_update_shape_witness :
    ((WriteOp.players { players := some ["a", "b", "c", "d"], status := some "full" })
        = some (unionAdd mOpen3.players "d") ∧
      (WriteOp.status { players := some ["a", "b", "c", "d"], status := some "full" })
        = some (if JNum.ble (numberOr4 mOpen3.maxPlayers)
            (JNum.ofNat (mOpen3.players.length + 1)) then "full" else "open")) ∧
    (([{ players := some (unionAdd mOpen3.players "d") }, { status := some "full" }]
        = [({ players := some (unionAdd mOpen3.players "d") } : WriteOp)] ∧
      numGe (JNum.ofNat (unionAdd mOpen3.players "d").length) mOpen3.maxPlayers = false) ∨
    ([({ players := some (unionAdd mOpen3.players "d") } : WriteOp), { status := some "full" }]
        = [{ players := some (unionAdd mOpen3.players "d") }, { status := some "full" }] ∧
      numGe (JNum.ofNat (unionAdd mOpen3.players "d").length) mOpen3.maxPlayers = true)) :=
  ⟨C4_join_update_shape.1 mOpen3 "d" _ (by decide),
   C4_join_update_shape.2 profLevel4 mOpen3 "d"
     [{ players := some (unionAdd mOpen3.players "d") }, { status := some "full" }]
     (by decide)⟩

/-- **C5**, counterexample.  The middle revision's create persists the
request body's `players` and `status` verbatim: a body carrying
`players = ["x"]` and `status = "full"` yields a record whose players
are not `[creator]` and whose status is not `"open"`. -/
theorem C5_counterexample :
    (createMatchMid "u" 0 midBodyForeign).players = ["x"] ∧
    "u" ∉ (createMatchMid "u" 0 midBodyForeign).players ∧
    (createMatchMid "u" 0 midBodyForeign).status = "full" := by
  decide

/-- **C5**, amended.  The band and level-aware creations always persist
`players = [creator]`, `status = "open"` and `maxPlayers` derived from
the mode (fixed 4 for the band revision's implicit 2v2; 2 for `1v1`
and 4 for `2v2` in the level-aware revision); the middle revision does
so only when the body omits `players` (absent, non-array or empty) and
`status` (falsy), and its `maxPlayers` is whatever the body supplied. -/
theorem C5_create_effects :
    (∀ (uid : String) (ts : Nat) (b : BandCreateBody),
      (createMatchBand uid ts b).players = [uid] ∧
      (createMatchBand uid ts b).status = "open" ∧
      (createMatchBand uid ts b).maxPlayers = JVal.jnum (JNum.ofNat 4)) ∧
    (∀ (prof : Option Profile) (uid : String) (ts : Nat) (b : LACreateBody) (m : Match),
      createMatchLA prof uid ts b = .ok m →
      m.players = [uid] ∧ m.status = "open" ∧
      m.maxPlayers = JVal.jnum (JNum.ofNat (if b.mode = "1v1" then 2 else 4))) ∧
    (∀ (uid : String) (ts : Nat) (b : MidCreateBody),
      (b.players = none ∨ b.players = some []) → b.status = "" →
      (createMatchMid uid ts b).players = [uid] ∧
      (createMatchMid uid ts b).status = "open") := by
  refine ⟨?_, ?_, ?_⟩
  · intro uid ts b
    exact ⟨rfl, rfl, rfl⟩
  · intro prof uid ts b m hok
    cases prof with
    | none => cases hok
    | some p =>
      obtain ⟨_, _, _, hm⟩ := createMatchLA_ok_iff.mp hok
      subst hm
      exact ⟨rfl, rfl, rfl⟩
  · intro uid ts b hp hst
    constructor
    · unfold createMatchMid
      rcases hp with h | h
      · simp [h]
      · simp [h]
    · unfold createMatchMid
      simp [hst]

/-- **C5**, witness: concrete creations in each revision. -/
theorem C5_create_effects_witness :
    ((createMatchBand "u" 0 {}).players = ["u"] ∧
      (createMatchBand "u" 0 {}).status = "open" ∧
      (createMatchBand "u" 0 {}).maxPlayers = JVal.jnum (JNum.ofNat 4)) ∧
    (laCreated.players = ["u"] ∧ laCreated.status = "open" ∧
      laCreated.maxPlayers = JVal.jnum (JNum.ofNat
        (if ({ mode := "1v1" } : LACreateBody).mode = "1v1" then 2 else 4))) ∧
    ((createMatchMid "u" 0 {}).players = ["u"] ∧ (createMatchMid "u" 0 {}).status = "open") :=
  ⟨C5_create_effects.1 "u" 0 {},
   C5_create_effects.2.1 (some profLevel4) "u" 0 { mode := "1v1" } laCreated (by decide),
   C5_create_effects.2.2 "u" 0 {} (Or.inl rfl) rfl⟩

/-- **C6**.  Level-aware creation with a creator whose profile level is
the number `lvl`: an unrecognised mode fails with a `ValidationError`
(`badMode`); with a valid mode, if the derived `levelMin` exceeds the
derived `levelMax` the request fails with a `ValidationError`
(`badLevels`) — both errors return before the `add` call, so no record
is persisted; an omitted or non-numeric `levelMin` defaults to
`Math.max(1, lvl - 0.5)`, an omitted or non-numeric `levelMax` to
`Math.min(7, lvl + 0.5)`, and a successful create persists exactly the
derived bounds. -/
theorem C6_create_level_defaults (p : Profile) (uid : String) (ts : Nat)
    (b : LACreateBody) (lvl : JNum) (hlvl : p.level = JVal.jnum lvl)
    (hnz : truthy (JVal.jnum lvl) = true) :
    ((b.mode ≠ "1v1" ∧ b.mode ≠ "2v2") →
      createMatchLA (some p) uid ts b = .error .badMode) ∧
    (¬(b.mode ≠ "1v1" ∧ b.mode ≠ "2v2") →
      optGt (derivedLvlMin p b) (derivedLvlMax p b) = true →
      createMatchLA (some p) uid ts b = .error .badLevels) ∧
    (jsNumber b.levelMin = none →
      derivedLvlMin p b = some (JNum.jmax (JNum.ofNat 1) (JNum.sub lvl JNum.half))) ∧
    (jsNumber b.levelMax = none →
      derivedLvlMax p b = some (JNum.jmin (JNum.ofNat 7) (JNum.add lvl JNum.half))) ∧
    (∀ m, createMatchLA (some p) uid ts b = .ok m →
      m.levelMin = ((derivedLvlMin p b).map JVal.jnum).getD JVal.jnan ∧
      m.levelMax = ((derivedLvlMax p b).map JVal.jnum).getD JVal.jnan) := by
  have htr : truthy p.level = true := by rw [hlvl]; exact hnz
  refine ⟨?_, ?_, ?_, ?_, ?_⟩
  · intro h1
    unfold createMatchLA
    simp [htr, h1]
  · intro h1 h2
    unfold createMatchLA
    simp [htr, h1, h2]
  · intro h
    unfold derivedLvlMin
    rw [h, hlvl]
    rfl
  · intro h
    unfold derivedLvlMax
    rw [h, hlvl]
    rfl
  · intro m hok
    obtain ⟨_, _, _, hm⟩ := createMatchLA_ok_iff.mp hok
    subst hm
    exact ⟨rfl, rfl⟩

/-- **C6**, witness: a level-4.5 creator, both defaults, a bad mode and
inverted explicit bounds. -/
theorem C6_create_level_defaults_witness :
    derivedLvlMin profLevel45 { mode := "1v1" }
      = some (JNum.jmax (JNum.ofNat 1) (JNum.sub ⟨9, 2⟩ JNum.half)) ∧
    derivedLvlMax profLevel45 { mode := "1v1" }
      = some (JNum.jmin (JNum.ofNat 7) (JNum.add ⟨9, 2⟩ JNum.half)) ∧
    createMatchLA (some profLevel45) "u" 0 { mode := "3v3" } = .error .badMode ∧
    createMatchLA (some profLevel45) "u" 0
        { mode := "1v1", levelMin := JVal.jnum (JNum.ofNat 5), levelMax := JVal.jnum (JNum.ofNat 3) }
      = .error .badLevels :=
  ⟨(C6_create_level_defaults profLevel45 "u" 0 { mode := "1v1" } ⟨9, 2⟩ rfl (by decide)).2.2.1
      rfl,
   (C6_create_level_defaults profLevel45 "u" 0 { mode := "1v1" } ⟨9, 2⟩ rfl
      (by decide)).2.2.2.1 rfl,
   (C6_create_level_defaults profLevel45 "u" 0 { mode := "3v3" } ⟨9, 2⟩ rfl (by decide)).1
      (by decide),
   (C6_create_level_defaults profLevel45 "u" 0
      { mode := "1v1", levelMin := JVal.jnum (JNum.ofNat 5), levelMax := JVal.jnum (JNum.ofNat 3) }
      ⟨9, 2⟩ rfl (by decide)).2.1 (by decide) (by decide)⟩

theorem length_listMatchesLA_le (db : List Match) (level : Option JNum)
    (date zone : Option String) : (listMatchesLA db level date zone).length ≤ 50 := by
  unfold listMatchesLA
  cases level with
  | none => exact List.length_take_le _ _
  | some l => exact le_trans (List.length_filter_le _ _) (List.length_take_le _ _)

theorem mem_listMatchesLA {db : List Match} {level : Option JNum} {date zone : Option String}
    {m : Match} (h : m ∈ listMatchesLA db level date zone) :
    m.status = "open" ∧
    (∀ l, level = some l →
      (∃ q, m.levelMin = JVal.jnum q ∧ JNum.ble q l = true) ∧
      (∀ q, m.levelMax = JVal.jnum q → JNum.ble l q = true)) := by
  unfold listMatchesLA at h
  cases level with
  | none =>
    replace h := List.mem_of_mem_take h
    rw [mem_sortByCreatedDesc] at h
    have h0 : m ∈ db.filter (fun m => m.status = "open") := by
      cases date with
      | none =>
        cases zone with
        | none => exact h
        | some z => exact (List.mem_filter.mp h).1
      | some d =>
        cases zone with
        | none => exact (List.mem_filter.mp h).1
        | some z => exact (List.mem_filter.mp (List.mem_filter.mp h).1).1
    refine ⟨by simpa using (List.mem_filter.mp h0).2, ?_⟩
    intro l hl
    cases hl
  | some l =>
    obtain ⟨hf, hmaxb⟩ := List.mem_filter.mp h
    replace hf := List.mem_of_mem_take hf
    rw [mem_sortByCreatedDesc] at hf
    obtain ⟨h2, hminb⟩ := List.mem_filter.mp hf
    have h0 : m ∈ db.filter (fun m => m.status = "open") := by
      cases date with
      | none =>
        cases zone with
        | none => exact h2
        | some z => exact (List.mem_filter.mp h2).1
      | some d =>
        cases zone with
        | none => exact (List.mem_filter.mp h2).1
        | some z => exact (List.mem_filter.mp (List.mem_filter.mp h2).1).1
    refine ⟨by simpa using (List.mem_filter.mp h0).2, ?_⟩
    intro l2 hl2
    injection hl2 with hl2
    subst hl2
    constructor
    · cases hv : m.levelMin with
      | jnum q =>
        rw [hv] at hminb
        exact ⟨q, rfl, by simpa using hminb⟩
      | jnan => rw [hv] at hminb; simp at hminb
      | jstr s => rw [hv] at hminb; simp at hminb
      | jbool v => rw [hv] at hminb; simp at hminb
      | jnull => rw [hv] at hminb; simp at hminb
      | jabsent => rw [hv] at hminb; simp at hminb
    · intro q hq
      rw [hq] at hmaxb
      simpa using hmaxb

theorem length_listMatchesBand_le (db : List Match) (lb date : Option String) :
    (listMatchesBand db lb date).length ≤ 50 := by
  cases lb with
  | none =>
    cases date with
    | none =>
      simp only [listMatchesBand, Option.isSome_none, Bool.or_self, Bool.false_eq_true,
        if_false, ite_false]
      exact List.length_take_le _ _
    | some d =>
      simp only [listMatchesBand, Option.isSome_none, Option.isSome_some, Bool.true_or,
        if_true, ite_true]
      rw [length_sortByCreatedDesc]
      exact List.length_take_le _ _
  | some bnd =>
    cases hrq : bandRankQ bnd with
    | none =>
      cases date with
      | none =>
        simp only [listMatchesBand, hrq, Option.isSome_none, Bool.or_self, Bool.false_eq_true,
          if_false, ite_false]
        exact List.length_take_le _ _
      | some d =>
        simp only [listMatchesBand, hrq, Option.isSome_none, Option.isSome_some, Bool.true_or,
          if_true, ite_true]
        rw [length_sortByCreatedDesc]
        exact List.length_take_le _ _
    | some r =>
      simp only [listMatchesBand, hrq, Option.isSome_some, Bool.or_true, if_true, ite_true]
      rw [length_sortByCreatedDesc]
      exact le_trans (List.length_filter_le _ _) (List.length_take_le _ _)

theorem mem_listMatchesBand {db : List Match} {bnd : String} {r : JNum}
    {date : Option String} {m : Match} (hrank : bandRankQ bnd = some r)
    (h : m ∈ listMatchesBand db (some bnd) date) :
    (∃ q, m.levelMinRank = JVal.jnum q ∧ JNum.ble q r = true) ∧
    (∀ q, m.levelMaxRank = JVal.jnum q → JNum.ble r q = true) := by
  unfold listMatchesBand at h
  simp only [hrank, Option.isSome_some, Bool.or_true, if_true, ite_true] at h
  rw [mem_sortByCreatedDesc] at h
  obtain ⟨ht, hmaxb⟩ := List.mem_filter.mp h
  replace ht := List.mem_of_mem_take ht
  obtain ⟨_, hminb⟩ := List.mem_filter.mp ht
  constructor
  · cases hv : m.levelMinRank with
    | jnum q =>
      rw [hv] at hminb
      exact ⟨q, rfl, by simpa using hminb⟩
    | jnan => rw [hv] at hminb; simp at hminb
    | jstr s => rw [hv] at hminb; simp at hminb
    | jbool v => rw [hv] at hminb; simp at hminb
    | jnull => rw [hv] at hminb; simp at hminb
    | jabsent => rw [hv] at hminb; simp at hminb
  · intro q hq
    rw [hq] at hmaxb
    simpa using hmaxb

/-- **C7**.  Listing contract: the level-aware `GET /matches` returns
at most 50 matches, each with `status = "open"`, and every returned
match satisfies `levelMin <= level` (its `levelMin` must be a number
passing the store-side range filter) and `level <= levelMax` whenever
its `levelMax` is number-valued — a record whose `levelMax` is absent
or non-numeric passes the upper-bound filter; the band revision's
listing likewise returns at most 50 matches (it applies no status
filter) and, given a recognised band filter of rank `r`, the same two
bounds on the stored ranks. -/
theorem C7_listing_contract :
    (∀ (db : List Match) (level : Option JNum) (date zone : Option String),
      (listMatchesLA db level date zone).length ≤ 50 ∧
      (∀ m ∈ listMatchesLA db level date zone, m.status = "open") ∧
      (∀ l, level = some l → ∀ m ∈ listMatchesLA db level date zone,
        (∃ q, m.levelMin = JVal.jnum q ∧ JNum.ble q l = true) ∧
        (∀ q, m.levelMax = JVal.jnum q → JNum.ble l q = true))) ∧
    (∀ (db : List Match) (lb date : Option String),
      (listMatchesBand db lb date).length ≤ 50 ∧
      (∀ (bnd : String) (r : JNum), lb = some bnd → bandRankQ bnd = some r →
        ∀ m ∈ listMatchesBand db lb date,
          (∃ q, m.levelMinRank = JVal.jnum q ∧ JNum.ble q r = true) ∧
          (∀ q, m.levelMaxRank = JVal.jnum q → JNum.ble r q = true))) := by
  constructor
  · intro db level date zone
    refine ⟨length_listMatchesLA_le db level date zone, ?_, ?_⟩
    · intro m hm
      exact (mem_listMatchesLA hm).1
    · intro l hl m hm
      exact (mem_listMatchesLA hm).2 l hl
  · intro db lb date
    refine ⟨length_listMatchesBand_le db lb date, ?_⟩
    intro bnd r hlb hrank m hm
    subst hlb
    exact mem_listMatchesBand hrank hm

/-- **C7**, witness: a concrete store under a level-4 filter and a band
filter. -/
theorem C7_listing_contract_witness :
    (listMatchesLA [mBounds35] (some (JNum.ofNat 4)) none none).length ≤ 50 ∧
    mBounds35 ∈ listMatchesLA [mBounds35] (some (JNum.ofNat 4)) none none ∧
    mBounds35.status = "open" ∧
    ((∃ q, mBounds35.levelMin = JVal.jnum q ∧ JNum.ble q (JNum.ofNat 4) = true) ∧
      (∀ q, mBounds35.levelMax = JVal.jnum q → JNum.ble (JNum.ofNat 4) q = true)) ∧
    (listMatchesBand [mOpen3] (some "5ta") none).length ≤ 50 :=
  ⟨(C7_listing_contract.1 [mBounds35] (some (JNum.ofNat 4)) none none).1,
   by decide,
   (C7_listing_contract.1 [mBounds35] (some (JNum.ofNat 4)) none none).2.1 mBounds35
     (by decide),
   (C7_listing_contract.1 [mBounds35] (some (JNum.ofNat 4)) none none).2.2 (JNum.ofNat 4) rfl
     mBounds35 (by decide),
   (C7_listing_contract.2 [mOpen3] (some "5ta") none).1⟩

/-- **C8**.  Band-revision leave on an existing match: a member who is
not the creator is removed — exactly the caller leaves the players
array (order of the others is preserved) — and the status is reset to
`"open"` unconditionally; a creator's leave attempt and a non-member's
leave attempt are rejected with a Conflict error and the stored record
is unchanged. -/
theorem C8_leave_cases (m : Match) (uid : String) :
    (uid ∈ m.players → m.createdBy ≠ uid →
      ∃ m1, leaveMatch m uid = .ok m1 ∧ m1.status = "open" ∧ uid ∉ m1.players ∧
        m1.players.Sublist m.players ∧
        (∀ x, x ≠ uid → (x ∈ m1.players ↔ x ∈ m.players))) ∧
    (m.createdBy = uid →
      (leaveMatch m uid = .error .creatorCannotLeave ∨
        leaveMatch m uid = .error .notMember) ∧ leaveStep m uid = m) ∧
    (uid ∉ m.players → leaveMatch m uid = .error .notMember ∧ leaveStep m uid = m) := by
  refine ⟨?_, ?_, ?_⟩
  · intro hmem hcr
    refine ⟨{ m with players := m.players.filter (fun p => p ≠ uid), status := "open" },
      ?_, rfl, ?_, ?_, ?_⟩
    · unfold leaveMatch
      rw [if_neg (by simp [hmem]), if_neg hcr]
    · simp [List.mem_filter]
    · exact List.filter_sublist _
    · intro x hx
      simp [List.mem_filter, hx]
  · intro hcr
    by_cases hmem : uid ∈ m.players
    · have he : leaveMatch m uid = .error .creatorCannotLeave := by
        unfold leaveMatch
        rw [if_neg (by simp [hmem]), if_pos hcr]
      exact ⟨Or.inl he, by unfold leaveStep; rw [he]⟩
    · have he : leaveMatch m uid = .error .notMember := by
        unfold leaveMatch
        rw [if_pos hmem]
      exact ⟨Or.inr he, by unfold leaveStep; rw [he]⟩
  · intro hmem
    have he : leaveMatch m uid = .error .notMember := by
      unfold leaveMatch
      rw [if_pos hmem]
    exact ⟨he, by unfold leaveStep; rw [he]⟩

/-- **C8**, witness: the three cases on a concrete stored match. -/
theorem C8_leave_cases_witness :
    (∃ m1, leaveMatch mOpen3 "b" = .ok m1 ∧ m1.status = "open" ∧ "b" ∉ m1.players ∧
      m1.players.Sublist mOpen3.players ∧
      (∀ x, x ≠ "b" → (x ∈ m1.players ↔ x ∈ mOpen3.players))) ∧
    ((leaveMatch mOpen3 "a" = .error .creatorCannotLeave ∨
      leaveMatch mOpen3 "a" = .error .notMember) ∧ leaveStep mOpen3 "a" = mOpen3) ∧
    (leaveMatch mOpen3 "z" = .error .notMember ∧ leaveStep mOpen3 "z" = mOpen3) :=
  ⟨(C8_leave_cases mOpen3 "b").1 (by decide) (by decide),
   (C8_leave_cases mOpen3 "a").2.1 (by decide),
   (C8_leave_cases mOpen3 "z").2.2 (by decide)⟩

/-- **C9**.  A successful band-revision edit leaves `players`, `status`,
`maxPlayers`, `mode`, `createdBy` and `createdAt` unchanged, whatever
the request body contains: the patch object only carries title, date,
time, location, zone, the level bounds and their re-derived ranks. -/
theorem C9_edit_frame (m : Match) (uid : String) (b : EditBody) (m1 : Match)
    (hok : editMatch m uid b = .ok m1) :
    m1.players = m.players ∧ m1.status = m.status ∧ m1.maxPlayers = m.maxPlayers ∧
    m1.mode = m.mode ∧ m1.createdBy = m.createdBy ∧ m1.createdAt = m.createdAt := by
  unfold editMatch at hok
  by_cases h : m.createdBy ≠ uid
  · rw [if_pos h] at hok
    cases hok
  · rw [if_neg h] at hok
    injection hok with h2
    rw [← h2]
    exact ⟨rfl, rfl, rfl, rfl, rfl, rfl⟩

/-- **C9**, witness: a concrete title-only edit by the creator. -/
theorem C9_edit_frame_witness :
    mEdited.players = mOpen3.players ∧ mEdited.status = mOpen3.status ∧
    mEdited.maxPlayers = mOpen3.maxPlayers ∧ mEdited.mode = mOpen3.mode ∧
    mEdited.createdBy = mOpen3.createdBy ∧ mEdited.createdAt = mOpen3.createdAt :=
  C9_edit_frame mOpen3 "a" { title := some "x" } mEdited (by decide)

/-- **C10**, counterexample.  A stored `maxPlayers` of the boolean
`true` is not a number, so by the claim the capacity check should
compare the two current players against 4 and admit the joiner; the
band revision instead coerces it with `Number(true) || 4 = 1` and
rejects the join as full. -/
theorem C10_counterexample :
    isNumberType mBoolCap.maxPlayers = false ∧
    mBoolCap.players.length = 2 ∧
    (2 : ℕ) < 4 ∧
    joinMatchBand mBoolCap "u" = .error .matchFull := by
  decide

/-- **C10**, amended.  The middle and level-aware joins treat a
non-number-typed stored `maxPlayers` as capacity 4, succeeding or
failing by comparing the player count against 4; the band revision
instead coerces with `Number(maxPlayers) || 4`, so a non-number value
whose coercion is a nonzero number (a boolean or a numeric string) is
used as the capacity, and 4 is only the fallback for values coercing to
`NaN` or `0`. -/
theorem C10_capacity_default :
    (∀ (m : Match) (uid : String), isNumberType m.maxPlayers = false →
      uid ∉ m.players →
      (joinMatchMid (some m) uid = .error .matchFull ↔ 4 ≤ m.players.length)) ∧
    (∀ (p : Profile) (m : Match) (uid : String), isNumberType m.maxPlayers = false →
      truthy p.level = true → m.status = "open" → uid ∉ m.players →
      (joinMatchLA (some p) (some m) uid = .error .matchFull ↔ 4 ≤ m.players.length)) ∧
    (∀ (m : Match) (uid : String), m.createdBy ≠ uid → uid ∉ m.players →
      (joinMatchBand m uid = .error .matchFull ↔
        JNum.ble (numberOr4 m.maxPlayers) (JNum.ofNat m.players.length) = true)) := by
  refine ⟨?_, ?_, ?_⟩
  · intro m uid hnum hmem
    by_cases hc : 4 ≤ m.players.length
    · simp [joinMatchMid, hmem, atCapacity_of_not_number hnum, hc]
    · simp [joinMatchMid, hmem, atCapacity_of_not_number hnum, hc]
  · intro p m uid hnum hlev hst hmem
    by_cases hc : 4 ≤ m.players.length
    · simp [joinMatchLA, hlev, hst, hmem, atCapacity_of_not_number hnum, hc]
    · by_cases h4 : levelCompatible p m = true
      · simp [joinMatchLA, hlev, hst, hmem, atCapacity_of_not_number hnum, hc, h4]
        split <;> simp
      · simp [joinMatchLA, hlev, hst, hmem, atCapacity_of_not_number hnum, hc, h4]
  · intro m uid hcr hmem
    by_cases hb : JNum.ble (numberOr4 m.maxPlayers) (JNum.ofNat m.players.length) = true
    · simp [joinMatchBand, hcr, hmem, hb]
    · simp only [Bool.not_eq_true] at hb
      simp [joinMatchBand, hcr, hmem, hb]

/-- **C10**, witness: the three capacity rules on concrete matches: a
string `maxPlayers` in the middle and level-aware joins (capacity 4)
and the band rule on the boolean fixture. -/
theorem C10_capacity_default_witness :
    (joinMatchMid (some { mOpen3 with maxPlayers := JVal.jstr "lots" }) "d"
        = .error .matchFull ↔
      4 ≤ ({ mOpen3 with maxPlayers := JVal.jstr "lots" } : Match).players.length) ∧
    (joinMatchLA (some profLevel4) (some { mOpen3 with maxPlayers := JVal.jstr "lots" }) "d"
        = .error .matchFull ↔
      4 ≤ ({ mOpen3 with maxPlayers := JVal.jstr "lots" } : Match).players.length) ∧
    (joinMatchBand mBoolCap "u" = .error .matchFull ↔
      JNum.ble (numberOr4 mBoolCap.maxPlayers) (JNum.ofNat mBoolCap.players.length) = true) :=
  ⟨C10_capacity_default.1 { mOpen3 with maxPlayers := JVal.jstr "lots" } "d" (by decide)
      (by decide),
   C10_capacity_default.2.1 profLevel4 { mOpen3 with maxPlayers := JVal.jstr "lots" } "d"
      (by decide) (by decide) (by decide) (by decide),
   C10_capacity_default.2.2 mBoolCap "u" (by decide) (by decide)⟩

end PadelPoint
